import Mathlib

/-!
Shallow embedding of the GCP-RHEL-License-Explorer reconciliation and
license-conversion core (Go sources under `internal/api` plus the instance
catalog), together with theorems checking the specification's claims.

External effects (Compute API calls, HTTP requests, JSON decoding of response
bodies) are modelled as environment records of fallible functions; everything
else is translated directly from the Go source.
-/

namespace GCPRhel

/-! ### Go string primitives used by the source
(the source only ever splits on `"/"`, so the split primitive is specialized
to that separator; lowercasing is ASCII, which covers every string the tool
handles). -/

/-- Go `strings.Split` on the separator `"/"`, over character lists: empty
pieces are kept and splitting the empty string yields `[[]]`. -/
def splitSlash : List Char → List (List Char)
  | [] => [[]]
  | c :: rest =>
    match splitSlash rest with
    | [] => [[]]
    | g :: gs => if c = '/' then [] :: g :: gs else (c :: g) :: gs

/-- Go `strings.Split(s, "/")`. -/
def goSplitSlash (s : String) : List String := (splitSlash s.data).map (fun cs => ⟨cs⟩)

/-- Boolean prefix test on character lists. -/
def listPrefixChars : List Char → List Char → Bool
  | [], _ => true
  | _ :: _, [] => false
  | a :: as, b :: bs => a = b && listPrefixChars as bs

/-- Boolean infix (substring) test on character lists. -/
def listInfixChars (pat : List Char) : List Char → Bool
  | [] => pat.isEmpty
  | c :: rest => listPrefixChars pat (c :: rest) || listInfixChars pat rest

/-- Go `strings.Contains(s, pat)`. -/
def goContains (s pat : String) : Bool := listInfixChars pat.data s.data

/-- Go `strings.Join(xs, sep)`. -/
def goJoin (xs : List String) (sep : String) : String :=
  match xs with
  | [] => ""
  | x :: rest => rest.foldl (fun acc y => acc ++ sep ++ y) x

/-- Go `strings.ToLower` (ASCII). -/
def goToLower (s : String) : String := ⟨s.data.map Char.toLower⟩

/-- Go `path.Base`: "." on the empty path, "/" if the path is all slashes,
otherwise the last element after stripping trailing slashes. -/
def pathBase (s : String) : String :=
  if s.data.isEmpty then "."
  else
    let t := (s.data.reverse.dropWhile (fun c => c = '/')).reverse
    if t.isEmpty then "/"
    else ⟨(splitSlash t).getLastD []⟩

/-! ### Data model (`Instance`, `InstanceExport`, `PAYGConversion`) -/

/-- Structure `api.Instance` (instances.go): a normalized GCP compute instance. -/
structure Instance where
  Name : String
  Zone : String
  MachineType : String
  Status : String
  IP : String
  LicenseCodes : List String
  DiskType : String
  DiskSizeGB : Int
  Project : String
deriving DecidableEq, Repr

/-- Structure `api.InstanceExport` (export.go): the reduced projection written to the
`{projectID}-instances.yml` file. -/
structure InstanceExport where
  Name : String
  Zone : String
  MachineType : String
  Status : String
  Licenses : List String
deriving DecidableEq, Repr

/-- Structure `api.PAYGConversion` (payg_converter.go): one conversion attempt record. -/
structure PAYGConversion where
  Instance : Instance
  OriginalOS : String
  ConversionURL : String
  Success : Bool
  NewOS : String
deriving DecidableEq, Repr

/-- The disk entry of an `compute.Instance` as used by the source
(only the `Source` reference is read). -/
structure AttachedDisk where
  Source : String
deriving DecidableEq, Repr

/-- The part of a `compute.Instance` GET response the converter reads. -/
structure InstanceDetail where
  Disks : List AttachedDisk
deriving DecidableEq, Repr

/-- The part of a `compute.Disk` GET response the converter and verifier read. -/
structure DiskInfo where
  SourceImage : String
  Licenses : List String
deriving DecidableEq, Repr

/-! ### Instance catalog license extraction (`ListInstances`, instances.go) -/

/-- The per-boot-disk license-identifier extraction of `ListInstances`
(instances.go, the loop over `bootDisk.Licenses`): an URL splitting into at
least six `/`-separated parts yields `{parts[len-4]}:{parts[len-1]}`,
anything shorter falls back to `path.Base` of the URL. -/
def extractLicenseCodesCatalog (licenses : List String) : List String :=
  licenses.foldl (fun licenseCodes license =>
    let licenseName := pathBase license
    let parts := goSplitSlash license
    if parts.length ≥ 6 then
      licenseCodes ++ [(parts.getD (parts.length - 4) "") ++ ":" ++ (parts.getD (parts.length - 1) "")]
    else
      licenseCodes ++ [licenseName]) []

/-- The license-identifier extraction of `VerifyConversion`
(payg_converter.go, the loop over `disk.Licenses`): identical `≥ 6` case, but
URLs with fewer parts contribute nothing (no fallback branch). -/
def extractLicenseCodesVerifier (licenses : List String) : List String :=
  licenses.foldl (fun licenseCodes license =>
    let parts := goSplitSlash license
    if parts.length ≥ 6 then
      licenseCodes ++ [(parts.getD (parts.length - 4) "") ++ ":" ++ (parts.getD (parts.length - 1) "")]
    else
      licenseCodes) []

/-! ### Exporter and reconciliation matcher
(`ExportInstancesToYAML`, export.go; `CheckInstancesFromFile`,
payg_converter.go). File IO and the YAML round trip are external: the export
is modelled as the list of records it serializes, and the matcher takes the
parsed record list as input. -/

/-- The projection `ExportInstancesToYAML` writes for each instance. -/
def exportRecordOf (i : Instance) : InstanceExport :=
  { Name := i.Name, Zone := i.Zone, MachineType := i.MachineType,
    Status := i.Status, Licenses := i.LicenseCodes }

/-- The record list `ExportInstancesToYAML` serializes to
`{projectID}-instances.yml`. -/
def exportedRecords (instances : List Instance) : List InstanceExport :=
  instances.map exportRecordOf

/-- The lookup key `fmt.Sprintf("%s/%s", Zone, Name)` built from a live
instance. -/
def instKey (i : Instance) : String := i.Zone ++ "/" ++ i.Name

/-- The lookup key built from an exported record (same format string). -/
def exportKey (e : InstanceExport) : String := e.Zone ++ "/" ++ e.Name

/-- The Go map `instanceMap`: each live instance is inserted under its key,
a later insertion overwriting an earlier one with the same key. -/
def instanceMapOf (instances : List Instance) : String → Option Instance :=
  instances.foldl (fun m i => fun k => if k = instKey i then some i else m k)
    (fun _ => none)

/-- The matching loop of `CheckInstancesFromFile`: each file record whose key
is in the map appends the looked-up live instance to the matched list,
every other record appends its key to the missing list. -/
def matchInstances (fileInstances : List InstanceExport) (instances : List Instance) :
    List Instance × List String :=
  let instanceMap := instanceMapOf instances
  fileInstances.foldl (fun acc fileInstance =>
    match instanceMap (exportKey fileInstance) with
    | some i => (acc.1 ++ [i], acc.2)
    | none => (acc.1, acc.2 ++ [exportKey fileInstance])) ([], [])

/-- Function `CheckInstancesFromFile` after the file has been read and parsed into
`fileInstances`: missing records are only reported, but an empty matched
list is an error. -/
def CheckInstancesFromFile (fileInstances : List InstanceExport)
    (instances : List Instance) : Except String (List Instance) :=
  let r := matchInstances fileInstances instances
  if r.1.isEmpty then
    .error "no matching instances found between file and current project"
  else
    .ok r.1

/-! ### License conversion engine (`ConvertToPAYG`, payg_converter.go) -/

/-- The two hard-coded target PAYG license URLs. -/
def rhel8License : String :=
  "https://www.googleapis.com/compute/v1/projects/rhel-cloud/global/licenses/rhel-8-server"

def rhel9License : String :=
  "https://www.googleapis.com/compute/v1/projects/rhel-cloud/global/licenses/rhel-9-server"

/-- The operation fields `ConvertToPAYG` decodes from a PATCH response body. -/
structure OpInfo where
  Name : String
  Status : String
  Zone : String
deriving DecidableEq, Repr

/-- The response fields `ConvertToPAYG` reads from the PATCH call. -/
structure HttpResp where
  StatusCode : Nat
  StatusText : String
  Body : String
deriving DecidableEq, Repr

/-- Environment of external calls made by `ConvertToPAYG`:
`computeService.Instances.Get`, `computeService.Disks.Get`,
`http.NewRequest`, `google.DefaultClient`, `client.Do`, and the
`json.Unmarshal` of the response body (`none` = decode error). -/
structure ConvertEnv where
  instancesGet : String → String → String → Except String InstanceDetail
  disksGet : String → String → String → Except String DiskInfo
  newRequest : String → String → String → Except String Unit
  defaultClient : Except String Unit
  doRequest : String → String → Except String HttpResp
  parseOp : String → Option OpInfo

/-- The boot-disk-name extraction of `ConvertToPAYG` (and, verbatim again,
of `VerifyConversion`): the last `/`-separated part of the disk `Source`
reference, `""` when the reference is empty. -/
def diskNameFromSource (source : String) : String :=
  if source ≠ "" then
    let parts := goSplitSlash source
    if parts.length > 0 then parts.getLastD "" else ""
  else ""

/-- The license-classification `switch` of `ConvertToPAYG`: the lowercased,
space-joined license codes are searched for "rhel-8" then "rhel-9"; with no
license codes at all, the boot disk's source image decides (defaulting to
RHEL 9 when the disk lookup fails or no marker matches); otherwise the
license cannot be determined (`none`). -/
def classifyLicense (env : ConvertEnv) (inst : Instance) (diskName : String) :
    Option String :=
  let currentOS := goToLower (goJoin inst.LicenseCodes " ")
  if goContains currentOS "rhel-8" then some rhel8License
  else if goContains currentOS "rhel-9" then some rhel9License
  else if inst.LicenseCodes.length = 0 then
    match env.disksGet inst.Project inst.Zone diskName with
    | .error _ => some rhel9License
    | .ok disk =>
      if disk.SourceImage ≠ "" && goContains (goToLower disk.SourceImage) "rhel-8" then
        some rhel8License
      else
        some rhel9License
  else none

/-- The PATCH URL `fmt.Sprintf` builds for a disk. -/
def convertURL (inst : Instance) (diskName : String) : String :=
  "https://www.googleapis.com/compute/alpha/projects/" ++ inst.Project ++
    "/zones/" ++ inst.Zone ++ "/disks/" ++ diskName ++ "?paths=licenses"

/-- The JSON body of the PATCH request. -/
def patchBody (diskName paygLicense : String) : String :=
  "\x7b\"name\":\"" ++ diskName ++ "\", \"licenses\":[\"" ++ paygLicense ++ "\"]\x7d"

/-- The request/response tail of one `ConvertToPAYG` iteration, from
`http.NewRequest` on: returns the finished record and the list of
`time.Sleep` durations (in seconds) performed. The 5-second sleep happens
exactly when the response body decodes to an operation with a non-empty
name. -/
def convertRequest (env : ConvertEnv) (inst : Instance)
    (diskName paygLicense : String) (base : PAYGConversion) :
    PAYGConversion × List Nat :=
  let apiURL := convertURL inst diskName
  let c1 := { base with ConversionURL := apiURL }
  let requestBody := patchBody diskName paygLicense
  match env.newRequest "PATCH" apiURL requestBody with
  | .error _ => (c1, [])
  | .ok _ =>
    match env.defaultClient with
    | .error _ => (c1, [])
    | .ok _ =>
      match env.doRequest apiURL requestBody with
      | .error _ => (c1, [])
      | .ok resp =>
        if resp.StatusCode < 200 || resp.StatusCode ≥ 300 then (c1, [])
        else
          let sleeps : List Nat :=
            match env.parseOp resp.Body with
            | some op => if op.Name ≠ "" then [5] else []
            | none => []
          let newOS :=
            if inst.Status ≠ "RUNNING" then
              "PAYG license applied to disk (VM status: " ++ inst.Status ++ ")"
            else
              "PAYG: Converting to " ++ paygLicense
          ({ c1 with Success := true, NewOS := newOS }, sleeps)

/-- One iteration of the `ConvertToPAYG` loop for a single instance:
the record starts with the instance and its joined license codes, and every
failing step appends it with `Success = false`. -/
def convertOne (env : ConvertEnv) (inst : Instance) : PAYGConversion × List Nat :=
  let base : PAYGConversion :=
    { Instance := inst, OriginalOS := goJoin inst.LicenseCodes ", ",
      ConversionURL := "", Success := false, NewOS := "" }
  match env.instancesGet inst.Project inst.Zone inst.Name with
  | .error _ => (base, [])
  | .ok instanceObj =>
    match instanceObj.Disks with
    | [] => (base, [])
    | bootDisk :: _ =>
      let diskName := diskNameFromSource bootDisk.Source
      if diskName = "" then (base, [])
      else
        match classifyLicense env inst diskName with
        | none => (base, [])
        | some paygLicense => convertRequest env inst diskName paygLicense base

/-- Function `ConvertToPAYG`: the loop over the matched instances, accumulating one
record per instance and the sleeps performed, in order. -/
def ConvertToPAYG (env : ConvertEnv) (instances : List Instance) :
    List PAYGConversion × List Nat :=
  instances.foldl (fun acc inst =>
    let r := convertOne env inst
    (acc.1 ++ [r.1], acc.2 ++ r.2)) ([], [])

/-! ### Conversion verifier (`VerifyConversion`, payg_converter.go) -/

/-- Environment of external calls made by `VerifyConversion`. -/
structure VerifyEnv where
  instancesGet : String → String → String → Except String InstanceDetail
  disksGet : String → String → String → Except String DiskInfo

/-- One iteration of the `VerifyConversion` loop: failed conversions are
skipped, any lookup problem leaves the record as is, and otherwise only
`NewOS` is rewritten from the re-fetched disk licenses (or a pending note). -/
def verifyOne (env : VerifyEnv) (c : PAYGConversion) : PAYGConversion :=
  if !c.Success then c
  else
    match env.instancesGet c.Instance.Project c.Instance.Zone c.Instance.Name with
    | .error _ => c
    | .ok instanceObj =>
      match instanceObj.Disks with
      | [] => c
      | bootDisk :: _ =>
        let diskName := diskNameFromSource bootDisk.Source
        if diskName = "" then c
        else
          match env.disksGet c.Instance.Project c.Instance.Zone diskName with
          | .error _ => c
          | .ok disk =>
            let licenseCodes := extractLicenseCodesVerifier disk.Licenses
            if licenseCodes.length > 0 then
              { c with NewOS := goJoin licenseCodes ", " }
            else if c.Instance.Status ≠ "RUNNING" then
              { c with NewOS := "License changed, but VM needs to be started to verify" }
            else
              { c with NewOS := "License change may be pending" }

/-- The record transformation of `VerifyConversion` (its 15-second sleep is
tracked separately in `runSleeps`). -/
def VerifyConversionList (env : VerifyEnv) (conversions : List PAYGConversion) :
    List PAYGConversion :=
  conversions.map (verifyOne env)

/-- The sleep trace of one full convert-then-verify run
(`handleBYOStoPAYG` calls `ConvertToPAYG` then `VerifyConversion`; the
latter sleeps 15 seconds before its loop, which itself never sleeps). -/
def runSleeps (env : ConvertEnv) (instances : List Instance) : List Nat :=
  (ConvertToPAYG env instances).2 ++ [15]

/-! ### Characterization of the two license extractions -/

/-- The catalog extraction loop, with the accumulator made explicit. -/
theorem catalogExtract_foldl (urls : List String) (acc : List String) :
    urls.foldl (fun licenseCodes license =>
      let licenseName := pathBase license
      let parts := goSplitSlash license
      if parts.length ≥ 6 then
        licenseCodes ++ [(parts.getD (parts.length - 4) "") ++ ":" ++ (parts.getD (parts.length - 1) "")]
      else
        licenseCodes ++ [licenseName]) acc
    = acc ++ urls.map (fun license =>
        let parts := goSplitSlash license
        if parts.length ≥ 6 then
          (parts.getD (parts.length - 4) "") ++ ":" ++ (parts.getD (parts.length - 1) "")
        else pathBase license) := by
  induction urls generalizing acc with
  | nil => simp
  | cons u t ih =>
    simp only [List.foldl_cons, List.map_cons, ih]
    by_cases h : (goSplitSlash u).length ≥ 6 <;> simp [h]

/-- The verifier extraction loop, with the accumulator made explicit. -/
theorem verifierExtract_foldl (urls : List String) (acc : List String) :
    urls.foldl (fun licenseCodes license =>
      let parts := goSplitSlash license
      if parts.length ≥ 6 then
        licenseCodes ++ [(parts.getD (parts.length - 4) "") ++ ":" ++ (parts.getD (parts.length - 1) "")]
      else
        licenseCodes) acc
    = acc ++ urls.filterMap (fun license =>
        let parts := goSplitSlash license
        if parts.length ≥ 6 then
          some ((parts.getD (parts.length - 4) "") ++ ":" ++ (parts.getD (parts.length - 1) ""))
        else none) := by
  induction urls generalizing acc with
  | nil => simp
  | cons u t ih =>
    simp only [List.foldl_cons, List.filterMap_cons, ih]
    by_cases h : (goSplitSlash u).length ≥ 6 <;> simp [h]

/-- Reading `getD` on a reversed list, counting from the end of the original. -/
theorem reverse_getD (l : List String) (i : Nat) (h : i < l.length) :
    l.reverse.getD i "" = l.getD (l.length - 1 - i) "" := by
  rw [List.getD_eq_getElem _ _ (by simpa using h), List.getD_eq_getElem _ _ (by omega)]
  exact List.getElem_reverse ..

/-- The catalog's identifier rule exactly as the specification words it:
when the URL splits into at least six path segments the identifier is
`{4th-from-last segment}:{last segment}` (read off the reversed segment
list); otherwise it is the URL's base name. -/
def specLicenseId (url : String) : String :=
  let segs := goSplitSlash url
  if segs.length ≥ 6 then
    (segs.reverse.getD 3 "") ++ ":" ++ (segs.reverse.getD 0 "")
  else pathBase url

/-- Per-URL contribution of the catalog extraction. -/
def catalogIdOf (license : String) : String :=
  let parts := goSplitSlash license
  if parts.length ≥ 6 then
    (parts.getD (parts.length - 4) "") ++ ":" ++ (parts.getD (parts.length - 1) "")
  else pathBase license

/-- Per-URL contribution of the verifier extraction (`none` = nothing). -/
def verifierIdOf (license : String) : Option String :=
  let parts := goSplitSlash license
  if parts.length ≥ 6 then
    some ((parts.getD (parts.length - 4) "") ++ ":" ++ (parts.getD (parts.length - 1) ""))
  else none

/-- The catalog extraction is the element-wise map of its per-URL rule. -/
theorem extractCatalog_eq_map (urls : List String) :
    extractLicenseCodesCatalog urls = urls.map catalogIdOf := by
  unfold extractLicenseCodesCatalog
  rw [catalogExtract_foldl]
  simp only [List.nil_append]
  rfl

/-- The verifier extraction is the `filterMap` of its per-URL rule. -/
theorem extractVerifier_eq_filterMap (urls : List String) :
    extractLicenseCodesVerifier urls = urls.filterMap verifierIdOf := by
  unfold extractLicenseCodesVerifier
  rw [verifierExtract_foldl]
  simp only [List.nil_append]
  rfl

/-- Claim C4: for every license URL on a boot disk, the catalog derives exactly
one identifier, equal to `{4th-from-last path segment}:{last path segment}`
when the URL splits into at least six path segments and to the URL's base
name otherwise — i.e. the extraction is the element-wise map of the
specification's rule. -/
theorem C4_catalog_license_id (urls : List String) :
    extractLicenseCodesCatalog urls = urls.map specLicenseId := by
  rw [extractCatalog_eq_map]
  apply List.map_congr_left
  intro u _
  unfold catalogIdOf specLicenseId
  by_cases h : (goSplitSlash u).length ≥ 6
  · simp only [h, if_true]
    rw [reverse_getD _ 3 (by omega), reverse_getD _ 0 (by omega)]
    have h1 : (goSplitSlash u).length - 1 - 3 = (goSplitSlash u).length - 4 := by omega
    have h2 : (goSplitSlash u).length - 1 - 0 = (goSplitSlash u).length - 1 := by omega
    rw [h1, h2]
  · simp [h]

/-- Claim C5 counterexample: on the one-segment URL `"abc"` the catalog falls
back to the base name (`["abc"]`) while the verifier produces nothing
(`[]`), so the two extraction rules are not extensionally equal. -/
theorem C5_counterexample :
    extractLicenseCodesVerifier ["abc"] ≠ extractLicenseCodesCatalog ["abc"] := by
  decide

/-- Claim C5 as amended: the verifier's license extraction agrees with the
catalog's on every list of license URLs each of which splits into at least
six path segments; they differ on shorter URLs, where only the catalog has
the base-name fallback. -/
theorem C5_extraction_agreement (urls : List String)
    (h : ∀ u ∈ urls, (goSplitSlash u).length ≥ 6) :
    extractLicenseCodesVerifier urls = extractLicenseCodesCatalog urls := by
  rw [extractVerifier_eq_filterMap, extractCatalog_eq_map]
  induction urls with
  | nil => rfl
  | cons u t ih =>
    have hu : (goSplitSlash u).length ≥ 6 := h u (by simp)
    have ht : ∀ v ∈ t, (goSplitSlash v).length ≥ 6 := fun v hv => h v (by simp [hv])
    rw [List.filterMap_cons, List.map_cons]
    simp only [verifierIdOf, catalogIdOf, hu, if_true]
    rw [ih ht]

/-- Witness for C5 (amended) at a concrete ≥6-segment license URL. -/
theorem C5_extraction_agreement_witness :
    extractLicenseCodesVerifier
        ["https://www.googleapis.com/compute/v1/projects/rhel-cloud/global/licenses/rhel-8-server"]
      = extractLicenseCodesCatalog
        ["https://www.googleapis.com/compute/v1/projects/rhel-cloud/global/licenses/rhel-8-server"] :=
  C5_extraction_agreement _ (by decide)

/-! ### Characterization of the reconciliation matcher -/

/-- Lookup preferring the LAST matching entry, mirroring Go map insertion
order (later inserts overwrite earlier ones). -/
def lookupLast (l : List Instance) (k : String) : Option Instance :=
  match l with
  | [] => none
  | a :: t =>
    match lookupLast t k with
    | some j => some j
    | none => if k = instKey a then some a else none

theorem instanceMapOf_foldl (init : String → Option Instance) (l : List Instance)
    (k : String) :
    (l.foldl (fun m i => fun s => if s = instKey i then some i else m s) init) k
      = match lookupLast l k with
        | some j => some j
        | none => init k := by
  induction l generalizing init with
  | nil => simp [lookupLast]
  | cons a t ih =>
    simp only [List.foldl_cons, lookupLast]
    rw [ih]
    cases lookupLast t k with
    | some j => simp
    | none => by_cases hk : k = instKey a <;> simp [hk]

theorem instanceMapOf_eq_lookupLast (l : List Instance) (k : String) :
    instanceMapOf l k = lookupLast l k := by
  unfold instanceMapOf
  rw [instanceMapOf_foldl]
  cases lookupLast l k <;> simp

theorem lookupLast_eq_some (l : List Instance) (k : String) (j : Instance)
    (h : lookupLast l k = some j) : j ∈ l ∧ instKey j = k := by
  induction l with
  | nil => simp [lookupLast] at h
  | cons a t ih =>
    unfold lookupLast at h
    cases hl : lookupLast t k with
    | some j2 =>
      rw [hl] at h
      cases h
      have := ih hl
      exact ⟨List.mem_cons_of_mem _ this.1, this.2⟩
    | none =>
      rw [hl] at h
      by_cases hk : k = instKey a
      · rw [if_pos hk] at h
        cases h
        exact ⟨List.mem_cons_self .., hk.symm⟩
      · rw [if_neg hk] at h
        cases h

theorem lookupLast_isSome_iff (l : List Instance) (k : String) :
    (lookupLast l k).isSome ↔ ∃ j ∈ l, instKey j = k := by
  induction l with
  | nil => simp [lookupLast]
  | cons a t ih =>
    unfold lookupLast
    cases hl : lookupLast t k with
    | some j2 =>
      simp only [Option.isSome_some, true_iff]
      have := lookupLast_eq_some t k j2 hl
      exact ⟨j2, List.mem_cons_of_mem _ this.1, this.2⟩
    | none =>
      rw [hl] at ih
      simp only [Option.isSome_none, Bool.false_eq_true, false_iff] at ih
      by_cases hk : k = instKey a
      · simp only [if_pos hk, Option.isSome_some, true_iff]
        exact ⟨a, List.mem_cons_self .., hk.symm⟩
      · simp only [if_neg hk, Option.isSome_none, Bool.false_eq_true, false_iff]
        rintro ⟨j, hj, hjk⟩
        rcases List.mem_cons.mp hj with rfl | hjt
        · exact hk hjk.symm
        · exact ih ⟨j, hjt, hjk⟩

theorem lookupLast_self_of_nodup (l : List Instance)
    (hnd : (l.map instKey).Nodup) (j : Instance) (hj : j ∈ l) :
    lookupLast l (instKey j) = some j := by
  induction l with
  | nil => simp at hj
  | cons a t ih =>
    rw [List.map_cons, List.nodup_cons] at hnd
    rcases List.mem_cons.mp hj with rfl | hjt
    · have hnone : lookupLast t (instKey j) = none := by
        cases hl : lookupLast t (instKey j) with
        | none => rfl
        | some j2 =>
          have := lookupLast_eq_some t (instKey j) j2 hl
          exact absurd (this.2 ▸ List.mem_map_of_mem instKey this.1) hnd.1
      unfold lookupLast
      rw [hnone, if_pos rfl]
    · unfold lookupLast
      rw [ih hnd.2 hjt]

/-- The matcher loop, with the accumulator made explicit. -/
theorem matcher_foldl (m : String → Option Instance) (fs : List InstanceExport)
    (acc : List Instance × List String) :
    fs.foldl (fun acc fileInstance =>
      match m (exportKey fileInstance) with
      | some i => (acc.1 ++ [i], acc.2)
      | none => (acc.1, acc.2 ++ [exportKey fileInstance])) acc
    = (acc.1 ++ fs.filterMap (fun f => m (exportKey f)),
       acc.2 ++ (fs.filter (fun f => (m (exportKey f)).isNone)).map exportKey) := by
  induction fs generalizing acc with
  | nil => simp
  | cons a t ih =>
    simp only [List.foldl_cons]
    cases h : m (exportKey a) with
    | some i =>
      rw [ih]
      simp [List.filterMap_cons, List.filter_cons, h]
    | none =>
      rw [ih]
      simp [List.filterMap_cons, List.filter_cons, h]

/-- Function `matchInstances` computes the filterMap of the lookup (matched, in file
order) and the keys of the lookup misses (missing, in file order). -/
theorem matchInstances_eq (fs : List InstanceExport) (l : List Instance) :
    matchInstances fs l
      = (fs.filterMap (fun f => instanceMapOf l (exportKey f)),
         (fs.filter (fun f => (instanceMapOf l (exportKey f)).isNone)).map exportKey) := by
  unfold matchInstances
  rw [matcher_foldl]
  simp

/-! ### Key-encoding facts: `zone ++ "/" ++ name` -/

theorem key_data (z n : String) : (z ++ "/" ++ n).data = z.data ++ '/' :: n.data := by
  simp [String.data_append]

theorem append_slash_inj (l1 r1 : List Char) (h1 : '/' ∉ l1) :
    ∀ (l2 r2 : List Char), '/' ∉ l2 →
      l1 ++ '/' :: r1 = l2 ++ '/' :: r2 → l1 = l2 ∧ r1 = r2 := by
  induction l1 with
  | nil =>
    intro l2 r2 h2 h
    cases l2 with
    | nil => simpa using h
    | cons b t2 =>
      simp only [List.nil_append, List.cons_append, List.cons.injEq] at h
      exact absurd (h.1 ▸ List.mem_cons_self ..) h2
  | cons a t1 ih =>
    intro l2 r2 h2 h
    cases l2 with
    | nil =>
      simp only [List.cons_append, List.nil_append, List.cons.injEq] at h
      exact absurd (h.1 ▸ List.mem_cons_self ..) h1
    | cons b t2 =>
      simp only [List.cons_append, List.cons.injEq] at h
      obtain ⟨rfl, ht⟩ := h
      have h1' : '/' ∉ t1 := fun hx => h1 (List.mem_cons_of_mem _ hx)
      have h2' : '/' ∉ t2 := fun hx => h2 (List.mem_cons_of_mem _ hx)
      obtain ⟨rfl, rfl⟩ := ih h1' t2 r2 h2' ht
      exact ⟨rfl, rfl⟩

/-- With slash-free zones, key equality is exactly (zone, name) equality. -/
theorem key_eq_iff (z1 n1 z2 n2 : String)
    (hz1 : '/' ∉ z1.data) (hz2 : '/' ∉ z2.data) :
    z1 ++ "/" ++ n1 = z2 ++ "/" ++ n2 ↔ (z1 = z2 ∧ n1 = n2) := by
  constructor
  · intro h
    have hd : (z1 ++ "/" ++ n1).data = (z2 ++ "/" ++ n2).data := by rw [h]
    rw [key_data, key_data] at hd
    obtain ⟨hz, hn⟩ := append_slash_inj z1.data n1.data hz1 z2.data n2.data hz2 hd
    exact ⟨String.ext hz, String.ext hn⟩
  · rintro ⟨rfl, rfl⟩
    rfl

/-- A `filterMap` that returns each element unchanged is the identity. -/
theorem filterMap_some_self {α : Type} (l : List α) (f : α → Option α)
    (h : ∀ a ∈ l, f a = some a) : l.filterMap f = l := by
  induction l with
  | nil => rfl
  | cons a t ih =>
    rw [List.filterMap_cons, h a (by simp)]
    rw [ih (fun b hb => h b (by simp [hb]))]

/-- An aliasing export record: zone `"a"`, name `"b/c"`. -/
def aliasExportRecord : InstanceExport :=
  { Name := "b/c", Zone := "a", MachineType := "", Status := "", Licenses := [] }

/-- An aliasing live instance: zone `"a/b"`, name `"c"` — a different
(zone, name) pair that builds the same `zone ++ "/" ++ name` key. -/
def aliasInstance : Instance :=
  { Name := "c", Zone := "a/b", MachineType := "", Status := "RUNNING", IP := "",
    LicenseCodes := [], DiskType := "", DiskSizeGB := 0, Project := "p" }

/-- Claim C1 counterexample: matching is on the concatenated key
`zone ++ "/" ++ name`, not on the (zone, name) pair itself; the export
record (zone `"a"`, name `"b/c"`) is matched to the live instance
(zone `"a/b"`, name `"c"`) although no live instance has its (zone, name)
pair, and it is not reported missing. -/
theorem C1_counterexample :
    (matchInstances [aliasExportRecord] [aliasInstance]).1 = [aliasInstance] ∧
    (matchInstances [aliasExportRecord] [aliasInstance]).2 = [] ∧
    ¬ ∃ j ∈ [aliasInstance],
        j.Zone = aliasExportRecord.Zone ∧ j.Name = aliasExportRecord.Name := by
  decide

/-- Claim C1 as amended: provided every zone involved is slash-free (true of
GCP zone names), an export record resolves to a matched instance if and
only if some live instance has exactly its (zone, name) pair
(case-sensitively); matched instances appear in export-file order and each
carries the record's (zone, name); records without a live match are
excluded from the matched output and collected, in order, into the missing
report. -/
theorem C1_matching (fileInstances : List InstanceExport) (instances : List Instance)
    (hzf : ∀ f ∈ fileInstances, '/' ∉ f.Zone.data)
    (hzi : ∀ i ∈ instances, '/' ∉ i.Zone.data) :
    (matchInstances fileInstances instances).1
        = fileInstances.filterMap (fun f => instanceMapOf instances (exportKey f)) ∧
    (matchInstances fileInstances instances).2
        = (fileInstances.filter
            (fun f => (instanceMapOf instances (exportKey f)).isNone)).map exportKey ∧
    (∀ f ∈ fileInstances,
        (instanceMapOf instances (exportKey f)).isSome
          ↔ ∃ j ∈ instances, j.Zone = f.Zone ∧ j.Name = f.Name) ∧
    (∀ f ∈ fileInstances, ∀ j, instanceMapOf instances (exportKey f) = some j →
        j ∈ instances ∧ j.Zone = f.Zone ∧ j.Name = f.Name) := by
  refine ⟨(congrArg Prod.fst (matchInstances_eq ..)),
          (congrArg Prod.snd (matchInstances_eq ..)), ?_, ?_⟩
  · intro f hf
    rw [instanceMapOf_eq_lookupLast, lookupLast_isSome_iff]
    constructor
    · rintro ⟨j, hj, hk⟩
      refine ⟨j, hj, ?_⟩
      have := (key_eq_iff j.Zone j.Name f.Zone f.Name (hzi j hj) (hzf f hf)).mp hk
      exact this
    · rintro ⟨j, hj, hz, hn⟩
      exact ⟨j, hj, by rw [instKey, exportKey, hz, hn]⟩
  · intro f hf j hj
    rw [instanceMapOf_eq_lookupLast] at hj
    obtain ⟨hmem, hk⟩ := lookupLast_eq_some _ _ _ hj
    have := (key_eq_iff j.Zone j.Name f.Zone f.Name (hzi j hmem) (hzf f hf)).mp hk
    exact ⟨hmem, this⟩

/-- Witness for C1 (amended): one matching and one missing record against a
single live instance. -/
theorem C1_matching_witness :
    ((matchInstances
        [{ Name := "vm1", Zone := "us-east1-b", MachineType := "", Status := "", Licenses := [] },
         { Name := "vm2", Zone := "us-east1-b", MachineType := "", Status := "", Licenses := [] }]
        [{ Name := "vm1", Zone := "us-east1-b", MachineType := "e2-medium", Status := "RUNNING",
           IP := "", LicenseCodes := [], DiskType := "", DiskSizeGB := 10, Project := "p" }]).1
      = [{ Name := "vm1", Zone := "us-east1-b", MachineType := "e2-medium", Status := "RUNNING",
           IP := "", LicenseCodes := [], DiskType := "", DiskSizeGB := 10, Project := "p" }]) ∧
    ((matchInstances
        [{ Name := "vm1", Zone := "us-east1-b", MachineType := "", Status := "", Licenses := [] },
         { Name := "vm2", Zone := "us-east1-b", MachineType := "", Status := "", Licenses := [] }]
        [{ Name := "vm1", Zone := "us-east1-b", MachineType := "e2-medium", Status := "RUNNING",
           IP := "", LicenseCodes := [], DiskType := "", DiskSizeGB := 10, Project := "p" }]).2
      = ["us-east1-b/vm2"]) := by
  have h := C1_matching
    [{ Name := "vm1", Zone := "us-east1-b", MachineType := "", Status := "", Licenses := [] },
     { Name := "vm2", Zone := "us-east1-b", MachineType := "", Status := "", Licenses := [] }]
    [{ Name := "vm1", Zone := "us-east1-b", MachineType := "e2-medium", Status := "RUNNING",
       IP := "", LicenseCodes := [], DiskType := "", DiskSizeGB := 10, Project := "p" }]
    (by decide) (by decide)
  refine ⟨h.1.trans (by decide), h.2.1.trans (by decide)⟩

/-- The exported projection keeps the instance's lookup key. -/
theorem exportKey_exportRecordOf (i : Instance) :
    exportKey (exportRecordOf i) = instKey i := rfl

/-- Claim C8 counterexample: for the empty live instance list the round trip
does not succeed — the matcher fails with its zero-matches error instead of
returning the (empty) live list. -/
theorem C8_counterexample :
    CheckInstancesFromFile (exportedRecords []) []
      = .error "no matching instances found between file and current project" := rfl

/-- Claim C8 as amended: for every non-empty live instance list whose
`zone ++ "/" ++ name` keys are pairwise distinct, exporting and then
immediately reconciling against the same live list succeeds with the full
live list as the matched set (same instances, same order) and reports zero
records missing. -/
theorem C8_roundtrip (instances : List Instance)
    (hne : instances ≠ [])
    (hnd : (instances.map instKey).Nodup) :
    CheckInstancesFromFile (exportedRecords instances) instances = .ok instances ∧
    (matchInstances (exportedRecords instances) instances).2 = [] := by
  have hmatched : (matchInstances (exportedRecords instances) instances).1 = instances := by
    rw [matchInstances_eq]
    unfold exportedRecords
    rw [List.filterMap_map]
    apply filterMap_some_self
    intro i hi
    simp only [Function.comp]
    rw [exportKey_exportRecordOf, instanceMapOf_eq_lookupLast]
    exact lookupLast_self_of_nodup instances hnd i hi
  have hmissing : (matchInstances (exportedRecords instances) instances).2 = [] := by
    rw [matchInstances_eq]
    unfold exportedRecords
    have hfil : (instances.map exportRecordOf).filter
        (fun f => (instanceMapOf instances (exportKey f)).isNone) = [] := by
      rw [List.filter_eq_nil_iff]
      intro f hf
      obtain ⟨i, hi, rfl⟩ := List.mem_map.mp hf
      rw [exportKey_exportRecordOf, instanceMapOf_eq_lookupLast,
          lookupLast_self_of_nodup instances hnd i hi]
      simp
    simp only [hfil, List.map_nil]
  refine ⟨?_, hmissing⟩
  unfold CheckInstancesFromFile
  simp only [hmatched]
  rw [if_neg (by simpa using hne)]

/-- Witness for C8 (amended) at a concrete one-instance list. -/
theorem C8_roundtrip_witness :
    CheckInstancesFromFile
        (exportedRecords
          [{ Name := "vm1", Zone := "us-east1-b", MachineType := "e2-medium",
             Status := "RUNNING", IP := "", LicenseCodes := [], DiskType := "",
             DiskSizeGB := 10, Project := "p" }])
        [{ Name := "vm1", Zone := "us-east1-b", MachineType := "e2-medium",
           Status := "RUNNING", IP := "", LicenseCodes := [], DiskType := "",
           DiskSizeGB := 10, Project := "p" }]
      = .ok
        [{ Name := "vm1", Zone := "us-east1-b", MachineType := "e2-medium",
           Status := "RUNNING", IP := "", LicenseCodes := [], DiskType := "",
           DiskSizeGB := 10, Project := "p" }] ∧
    (matchInstances
        (exportedRecords
          [{ Name := "vm1", Zone := "us-east1-b", MachineType := "e2-medium",
             Status := "RUNNING", IP := "", LicenseCodes := [], DiskType := "",
             DiskSizeGB := 10, Project := "p" }])
        [{ Name := "vm1", Zone := "us-east1-b", MachineType := "e2-medium",
           Status := "RUNNING", IP := "", LicenseCodes := [], DiskType := "",
           DiskSizeGB := 10, Project := "p" }]).2 = [] :=
  C8_roundtrip _ (by decide) (by decide)

/-! ### Characterization of the conversion engine -/

/-- The conversion loop, with the accumulator made explicit. -/
theorem convert_foldl (env : ConvertEnv) (insts : List Instance)
    (acc : List PAYGConversion × List Nat) :
    insts.foldl (fun acc inst =>
      let r := convertOne env inst
      (acc.1 ++ [r.1], acc.2 ++ r.2)) acc
    = (acc.1 ++ insts.map (fun i => (convertOne env i).1),
       acc.2 ++ insts.flatMap (fun i => (convertOne env i).2)) := by
  induction insts generalizing acc with
  | nil => simp
  | cons a t ih =>
    simp only [List.foldl_cons, ih, List.map_cons, List.flatMap_cons]
    simp

/-- The records of a conversion run are the element-wise map of the
one-instance conversion. -/
theorem ConvertToPAYG_records (env : ConvertEnv) (instances : List Instance) :
    (ConvertToPAYG env instances).1 = instances.map (fun i => (convertOne env i).1) := by
  unfold ConvertToPAYG
  rw [convert_foldl]
  simp

/-- The sleeps of a conversion run are the concatenation of the
one-instance sleeps. -/
theorem ConvertToPAYG_sleeps (env : ConvertEnv) (instances : List Instance) :
    (ConvertToPAYG env instances).2 = instances.flatMap (fun i => (convertOne env i).2) := by
  unfold ConvertToPAYG
  rw [convert_foldl]
  simp

/-- One instance's conversion sleeps either not at all or once for 5
seconds. -/
theorem convertOne_sleeps (env : ConvertEnv) (inst : Instance) :
    (convertOne env inst).2 = [] ∨ (convertOne env inst).2 = [5] := by
  unfold convertOne
  cases hg : env.instancesGet inst.Project inst.Zone inst.Name with
  | error e => left; rfl
  | ok det =>
    dsimp only
    cases hd : det.Disks with
    | nil => left; rfl
    | cons bootDisk rest =>
      dsimp only
      by_cases hn : diskNameFromSource bootDisk.Source = ""
      · rw [if_pos hn]; left; rfl
      · rw [if_neg hn]
        cases hc : classifyLicense env inst (diskNameFromSource bootDisk.Source) with
        | none => left; rfl
        | some lic =>
          dsimp only
          unfold convertRequest
          dsimp only
          cases hr : env.newRequest "PATCH" (convertURL inst (diskNameFromSource bootDisk.Source))
              (patchBody (diskNameFromSource bootDisk.Source) lic) with
          | error e => left; rfl
          | ok u =>
            dsimp only
            cases hdc : env.defaultClient with
            | error e => left; rfl
            | ok u2 =>
              dsimp only
              cases hresp : env.doRequest (convertURL inst (diskNameFromSource bootDisk.Source))
                  (patchBody (diskNameFromSource bootDisk.Source) lic) with
              | error e => left; rfl
              | ok resp =>
                dsimp only
                by_cases hs : (decide (resp.StatusCode < 200) || decide (resp.StatusCode ≥ 300)) = true
                · rw [if_pos hs]; left; rfl
                · rw [if_neg hs]
                  cases hop : env.parseOp resp.Body with
                  | none => left; rfl
                  | some op =>
                    dsimp only
                    by_cases hn2 : op.Name ≠ ""
                    · rw [if_pos hn2]; right; rfl
                    · rw [if_neg hn2]; left; rfl

/-- A 5-second sleep happens only on the success path. -/
theorem convertOne_sleep_success (env : ConvertEnv) (inst : Instance)
    (h : (convertOne env inst).2 = [5]) : (convertOne env inst).1.Success = true := by
  revert h
  unfold convertOne
  cases hg : env.instancesGet inst.Project inst.Zone inst.Name with
  | error e => intro h; simp at h
  | ok det =>
    dsimp only
    cases hd : det.Disks with
    | nil => intro h; simp at h
    | cons bootDisk rest =>
      dsimp only
      by_cases hn : diskNameFromSource bootDisk.Source = ""
      · rw [if_pos hn]; intro h; simp at h
      · rw [if_neg hn]
        cases hc : classifyLicense env inst (diskNameFromSource bootDisk.Source) with
        | none => intro h; simp at h
        | some lic =>
          dsimp only
          unfold convertRequest
          dsimp only
          cases hr : env.newRequest "PATCH" (convertURL inst (diskNameFromSource bootDisk.Source))
              (patchBody (diskNameFromSource bootDisk.Source) lic) with
          | error e => intro h; simp at h
          | ok u =>
            dsimp only
            cases hdc : env.defaultClient with
            | error e => intro h; simp at h
            | ok u2 =>
              dsimp only
              cases hresp : env.doRequest (convertURL inst (diskNameFromSource bootDisk.Source))
                  (patchBody (diskNameFromSource bootDisk.Source) lic) with
              | error e => intro h; simp at h
              | ok resp =>
                dsimp only
                by_cases hs : (decide (resp.StatusCode < 200) || decide (resp.StatusCode ≥ 300)) = true
                · rw [if_pos hs]; intro h; simp at h
                · rw [if_neg hs]; intro h; rfl

/-- Claim C7: `ConvertToPAYG` appends exactly one `PAYGConversion` record per
input instance, in input order, and each instance's record is
`(convertOne env i).1` — a function of that instance and the API
environment alone, so another instance's failure can neither alter nor
suppress it. -/
theorem C7_one_record_per_instance (env : ConvertEnv) (instances : List Instance) :
    (ConvertToPAYG env instances).1 = instances.map (fun i => (convertOne env i).1) ∧
    (ConvertToPAYG env instances).1.length = instances.length := by
  refine ⟨ConvertToPAYG_records env instances, ?_⟩
  rw [ConvertToPAYG_records env instances, List.length_map]

/-- Claim C2: a matched instance with a non-empty license-identifier list
containing neither the `rhel-8` nor the `rhel-9` marker (lowercased,
joined) is recorded as Failed after the earlier steps succeeded: the record
keeps `Success = false`, an empty `ConversionURL` and `NewOS`, no sleep
happens, and the outcome is independent of the HTTP transport — no disk
patch request is issued. -/
theorem C2_unrecognized_license_fails (env : ConvertEnv) (inst : Instance)
    (det : InstanceDetail) (bootDisk : AttachedDisk) (rest : List AttachedDisk)
    (hget : env.instancesGet inst.Project inst.Zone inst.Name = .ok det)
    (hdisks : det.Disks = bootDisk :: rest)
    (hname : diskNameFromSource bootDisk.Source ≠ "")
    (hne : inst.LicenseCodes ≠ [])
    (h8 : goContains (goToLower (goJoin inst.LicenseCodes " ")) "rhel-8" = false)
    (h9 : goContains (goToLower (goJoin inst.LicenseCodes " ")) "rhel-9" = false) :
    convertOne env inst
      = ({ Instance := inst, OriginalOS := goJoin inst.LicenseCodes ", ",
           ConversionURL := "", Success := false, NewOS := "" }, []) ∧
    (∀ doReq, convertOne { env with doRequest := doReq } inst = convertOne env inst) := by
  have hclass : ∀ (e : ConvertEnv) (dn : String), classifyLicense e inst dn = none := by
    intro e dn
    unfold classifyLicense
    dsimp only
    rw [h8, h9]
    simp [List.length_eq_zero, hne]
  have main : ∀ (e : ConvertEnv),
      e.instancesGet inst.Project inst.Zone inst.Name = .ok det →
      convertOne e inst
        = ({ Instance := inst, OriginalOS := goJoin inst.LicenseCodes ", ",
             ConversionURL := "", Success := false, NewOS := "" }, []) := by
    intro e hg
    unfold convertOne
    rw [hg]
    dsimp only
    rw [hdisks]
    dsimp only
    rw [if_neg hname, hclass]
  refine ⟨main env hget, fun doReq => ?_⟩
  have hget2 : ConvertEnv.instancesGet { env with doRequest := doReq }
      inst.Project inst.Zone inst.Name = .ok det := hget
  rw [main { env with doRequest := doReq } hget2, main env hget]

/-- Claim C3: a matched instance with an empty license-identifier list, whose
earlier steps (fetch, at-least-one-disk, disk-name parse) succeeded, is
never Failed at classification: whatever the disk lookup returns, the
target resolves to one of the two known license URLs and the conversion
proceeds to the patch request with that target. -/
theorem C3_empty_licenses_classified (env : ConvertEnv) (inst : Instance)
    (det : InstanceDetail) (bootDisk : AttachedDisk) (rest : List AttachedDisk)
    (hget : env.instancesGet inst.Project inst.Zone inst.Name = .ok det)
    (hdisks : det.Disks = bootDisk :: rest)
    (hname : diskNameFromSource bootDisk.Source ≠ "")
    (hempty : inst.LicenseCodes = []) :
    (classifyLicense env inst (diskNameFromSource bootDisk.Source) = some rhel8License ∨
     classifyLicense env inst (diskNameFromSource bootDisk.Source) = some rhel9License) ∧
    convertOne env inst
      = convertRequest env inst (diskNameFromSource bootDisk.Source)
          ((classifyLicense env inst (diskNameFromSource bootDisk.Source)).getD "")
          { Instance := inst, OriginalOS := goJoin inst.LicenseCodes ", ",
            ConversionURL := "", Success := false, NewOS := "" } := by
  have hclass : ∃ lic, (lic = rhel8License ∨ lic = rhel9License) ∧
      classifyLicense env inst (diskNameFromSource bootDisk.Source) = some lic := by
    unfold classifyLicense
    dsimp only
    rw [hempty]
    have h8 : goContains (goToLower (goJoin [] " ")) "rhel-8" = false := by decide
    have h9 : goContains (goToLower (goJoin [] " ")) "rhel-9" = false := by decide
    rw [h8, h9, if_neg (by simp), if_neg (by simp), if_pos (by simp)]
    cases hd : env.disksGet inst.Project inst.Zone (diskNameFromSource bootDisk.Source) with
    | error e => exact ⟨rhel9License, Or.inr rfl, rfl⟩
    | ok disk =>
      dsimp only
      by_cases hs : (decide (disk.SourceImage ≠ "") && goContains (goToLower disk.SourceImage) "rhel-8") = true
      · exact ⟨rhel8License, Or.inl rfl, by rw [if_pos hs]⟩
      · exact ⟨rhel9License, Or.inr rfl, by rw [if_neg hs]⟩
  obtain ⟨lic, hlic, hcls⟩ := hclass
  constructor
  · rcases hlic with rfl | rfl
    · exact Or.inl hcls
    · exact Or.inr hcls
  · unfold convertOne
    rw [hget]
    dsimp only
    rw [hdisks]
    dsimp only
    rw [if_neg hname, hcls]
    rfl

/-- Claim C10: when the lowercased, joined license identifiers contain both
the `rhel-8` and the `rhel-9` marker, classification selects the
`rhel-8-server` target URL — the `rhel-8` case is tested first. -/
theorem C10_rhel8_precedence (env : ConvertEnv) (inst : Instance) (diskName : String)
    (h8 : goContains (goToLower (goJoin inst.LicenseCodes " ")) "rhel-8" = true)
    (h9 : goContains (goToLower (goJoin inst.LicenseCodes " ")) "rhel-9" = true) :
    classifyLicense env inst diskName = some rhel8License := by
  unfold classifyLicense
  dsimp only
  rw [h8]
  simp

/-! ### Sample environments and instances for concrete evaluation -/

/-- A one-disk instance detail. -/
def sampleDetail : InstanceDetail :=
  { Disks := [{ Source := "projects/p/zones/z/disks/disk0" }] }

/-- An environment whose instance fetch and HTTP calls succeed (status 200,
response parsing to a named operation) and whose disk lookup fails. -/
def sampleEnv : ConvertEnv :=
  { instancesGet := fun _ _ _ => .ok sampleDetail
    disksGet := fun _ _ _ => .error "disk lookup failed"
    newRequest := fun _ _ _ => .ok ()
    defaultClient := .ok ()
    doRequest := fun _ _ => .ok { StatusCode := 200, StatusText := "200 OK", Body := "op-body" }
    parseOp := fun _ => some { Name := "operation-123", Status := "RUNNING", Zone := "z" } }

/-- An instance whose license identifiers carry no recognized marker. -/
def unknownLicenseInstance : Instance :=
  { Name := "vm-win", Zone := "us-east1-b", MachineType := "e2-medium", Status := "RUNNING",
    IP := "", LicenseCodes := ["windows-server"], DiskType := "", DiskSizeGB := 10,
    Project := "p" }

/-- An instance with no license identifiers at all. -/
def emptyLicenseInstance : Instance :=
  { Name := "vm-empty", Zone := "us-east1-b", MachineType := "e2-medium", Status := "RUNNING",
    IP := "", LicenseCodes := [], DiskType := "", DiskSizeGB := 10, Project := "p" }

/-- An instance whose license identifiers carry both markers. -/
def bothMarkersInstance : Instance :=
  { Name := "vm-both", Zone := "us-east1-b", MachineType := "e2-medium", Status := "RUNNING",
    IP := "", LicenseCodes := ["RHEL-8-server", "rhel-9-sap"], DiskType := "", DiskSizeGB := 10,
    Project := "p" }

/-- A RHEL-8 instance whose conversion path reaches the 5-second sleep. -/
def sleepInstA : Instance :=
  { Name := "vm-a", Zone := "z1", MachineType := "", Status := "RUNNING", IP := "",
    LicenseCodes := ["rhel-8-server"], DiskType := "", DiskSizeGB := 10, Project := "p" }

/-- A second such instance. -/
def sleepInstB : Instance :=
  { Name := "vm-b", Zone := "z1", MachineType := "", Status := "RUNNING", IP := "",
    LicenseCodes := ["rhel-8-server"], DiskType := "", DiskSizeGB := 10, Project := "p" }

/-- Witness for C2 at a concrete environment and instance. -/
theorem C2_unrecognized_license_fails_witness :
    convertOne sampleEnv unknownLicenseInstance
      = ({ Instance := unknownLicenseInstance, OriginalOS := "windows-server",
           ConversionURL := "", Success := false, NewOS := "" }, []) :=
  (C2_unrecognized_license_fails sampleEnv unknownLicenseInstance sampleDetail
    { Source := "projects/p/zones/z/disks/disk0" } [] rfl rfl (by decide) (by decide)
    (by decide) (by decide)).1

/-- Witness for C3 at a concrete environment and instance (the disk lookup
fails, so the target defaults to RHEL 9). -/
theorem C3_empty_licenses_classified_witness :
    (classifyLicense sampleEnv emptyLicenseInstance
        (diskNameFromSource "projects/p/zones/z/disks/disk0") = some rhel8License ∨
     classifyLicense sampleEnv emptyLicenseInstance
        (diskNameFromSource "projects/p/zones/z/disks/disk0") = some rhel9License) ∧
    convertOne sampleEnv emptyLicenseInstance
      = convertRequest sampleEnv emptyLicenseInstance
          (diskNameFromSource "projects/p/zones/z/disks/disk0")
          ((classifyLicense sampleEnv emptyLicenseInstance
              (diskNameFromSource "projects/p/zones/z/disks/disk0")).getD "")
          { Instance := emptyLicenseInstance, OriginalOS := goJoin [] ", ",
            ConversionURL := "", Success := false, NewOS := "" } :=
  C3_empty_licenses_classified sampleEnv emptyLicenseInstance sampleDetail
    { Source := "projects/p/zones/z/disks/disk0" } [] rfl rfl (by decide) rfl

/-- Witness for C10 at a concrete instance carrying both markers. -/
theorem C10_rhel8_precedence_witness :
    classifyLicense sampleEnv bothMarkersInstance "disk0" = some rhel8License :=
  C10_rhel8_precedence sampleEnv bothMarkersInstance "disk0" (by decide) (by decide)

/-- Claim C9 counterexample: a run over two instances whose patches succeed
performs three pauses — a 5-second pause inside the loop for EACH instance,
then the 15-second pause — not the claimed two with a single short pause
after the batch. -/
theorem C9_counterexample :
    runSleeps sampleEnv [sleepInstA, sleepInstB] = [5, 5, 15] ∧
    (runSleeps sampleEnv [sleepInstA, sleepInstB]).length ≠ 2 := by
  constructor
  · rfl
  · decide

/-- Claim C9 as amended: the sleep trace of a convert-then-verify run is the
per-instance concatenation of the conversion sleeps followed by the single
15-second pre-verification pause; each instance contributes no pause or one
5-second pause (inside the loop, not after the batch), and only when its
patch succeeded. -/
theorem C9_sleep_trace (env : ConvertEnv) (instances : List Instance) (inst : Instance) :
    runSleeps env instances
      = instances.flatMap (fun i => (convertOne env i).2) ++ [15] ∧
    ((convertOne env inst).2 = [] ∨ (convertOne env inst).2 = [5]) ∧
    ((convertOne env inst).2 = [5] → (convertOne env inst).1.Success = true) := by
  refine ⟨?_, convertOne_sleeps env inst, convertOne_sleep_success env inst⟩
  unfold runSleeps
  rw [ConvertToPAYG_sleeps]

/-- Witness for C9 (amended) at a concrete one-instance run. -/
theorem C9_sleep_trace_witness :
    runSleeps sampleEnv [sleepInstA]
      = [sleepInstA].flatMap (fun i => (convertOne sampleEnv i).2) ++ [15] ∧
    (convertOne sampleEnv sleepInstA).1.Success = true :=
  ⟨(C9_sleep_trace sampleEnv [sleepInstA] sleepInstA).1,
   (C9_sleep_trace sampleEnv [sleepInstA] sleepInstA).2.2 (by decide)⟩

/-! ### Frame property of the verifier -/

/-- Function `verifyOne` preserves everything but `NewOS`, and skips failed records
entirely. -/
theorem verifyOne_frame (venv : VerifyEnv) (c : PAYGConversion) :
    (verifyOne venv c).Success = c.Success ∧
    (c.Success = false → verifyOne venv c = c) ∧
    (verifyOne venv c).Instance = c.Instance ∧
    (verifyOne venv c).OriginalOS = c.OriginalOS ∧
    (verifyOne venv c).ConversionURL = c.ConversionURL := by
  unfold verifyOne
  cases hsucc : c.Success with
  | false => simp [hsucc]
  | true =>
    simp only [Bool.not_true, Bool.false_eq_true, if_false]
    cases hg : venv.instancesGet c.Instance.Project c.Instance.Zone c.Instance.Name with
    | error e => simp [hsucc]
    | ok det =>
      dsimp only
      cases hd : det.Disks with
      | nil => simp [hsucc]
      | cons bootDisk rest =>
        dsimp only
        by_cases hn : diskNameFromSource bootDisk.Source = ""
        · rw [if_pos hn]; simp [hsucc]
        · rw [if_neg hn]
          cases hdg : venv.disksGet c.Instance.Project c.Instance.Zone
              (diskNameFromSource bootDisk.Source) with
          | error e => simp [hsucc]
          | ok disk =>
            dsimp only
            by_cases hl : (extractLicenseCodesVerifier disk.Licenses).length > 0
            · rw [if_pos hl]; simp [hsucc]
            · rw [if_neg hl]
              by_cases hr : c.Instance.Status ≠ "RUNNING"
              · rw [if_pos hr]; simp [hsucc]
              · rw [if_neg hr]; simp [hsucc]

/-- Claim C6: the verification pass is a per-record frame-preserving map: it
never changes a record's `Success` flag, never adds or removes records,
leaves failed records entirely unchanged, and for successful records
modifies at most `NewOS`. -/
theorem C6_verify_frame (venv : VerifyEnv) (cs : List PAYGConversion) :
    (VerifyConversionList venv cs).length = cs.length ∧
    List.Forall₂ (fun c r =>
      r.Success = c.Success ∧
      (c.Success = false → r = c) ∧
      r.Instance = c.Instance ∧
      r.OriginalOS = c.OriginalOS ∧
      r.ConversionURL = c.ConversionURL) cs (VerifyConversionList venv cs) := by
  constructor
  · unfold VerifyConversionList
    rw [List.length_map]
  · unfold VerifyConversionList
    induction cs with
    | nil => simp
    | cons a t ih =>
      rw [List.map_cons]
      exact List.Forall₂.cons (verifyOne_frame venv a) ih

end GCPRhel
